import Mathlib

/-
Verification development for the Macallan underwriting engine
(src/scripts/irr_engine.py).

The program reads investment records from an external record store,
computes underwriting metrics (cap rate, LTV, yield on cost, spread,
reversion value, cash-on-cash, IRR, equity multiple) per record, and
writes the results back, with per-record failure isolation and
retry/backoff on every network call.

Modelling conventions:
- Python floats are modelled as rationals (ℚ); the numeric formulas of
  the program involve only field arithmetic, so ℚ is an exact model of
  the intended real-number behaviour (binary-float rounding artifacts
  are not modelled; no claim here depends on them).
- The standard ℚ arithmetic operations of the ambient library are
  deliberately not kernel-computable, so the embedding computes with
  thin wrappers (`qadd`, `qmul`, `qdiv`, `qneg`, `qsub`, `qabs`,
  `qpow`, `qsum`) built from the computable smart constructor `mkRat`;
  the bridge lemmas `qadd_eq` … `qsum_eq` below prove each wrapper
  equal to the corresponding field operation, so the wrappers are the
  field operations — merely in evaluable clothing.
- Fallible Python code (code that can raise) is modelled in
  `Except PyErr`; the network is modelled as an oracle giving the
  outcome of each attempt of each call.
- The IRR root finder itself is the external numpy_financial library,
  not part of this repository; it is modelled from the spec (see
  `irrSolve` below).
-/

/-! ## Computable ℚ arithmetic wrappers and their bridges -/

/-- Addition on ℚ through the computable smart constructor. -/
def qadd (a b : ℚ) : ℚ := mkRat (a.num * b.den + b.num * a.den) (a.den * b.den)

/-- Multiplication on ℚ through the computable smart constructor. -/
def qmul (a b : ℚ) : ℚ := mkRat (a.num * b.num) (a.den * b.den)

/-- Division on ℚ through the computable constructor (0 on a zero
denominator, matching the ambient convention x / 0 = 0). -/
def qdiv (a b : ℚ) : ℚ := Rat.divInt (a.num * b.den) (a.den * b.num)

/-- Negation on ℚ through the computable smart constructor. -/
def qneg (a : ℚ) : ℚ := mkRat (-a.num) a.den

/-- Subtraction on ℚ through the computable smart constructor. -/
def qsub (a b : ℚ) : ℚ := qadd a (qneg b)

/-- Absolute value on ℚ through the computable smart constructor. -/
def qabs (a : ℚ) : ℚ := mkRat (a.num.natAbs) a.den

/-- Power on ℚ by iterated `qmul`. -/
def qpow (a : ℚ) : ℕ → ℚ
  | 0 => 1
  | n + 1 => qmul (qpow a n) a

/-- Sum of a list of rationals by folded `qadd`. -/
def qsum (l : List ℚ) : ℚ := l.foldr qadd 0

/-! ## NumericParser: `safe_number_colval` (irr_engine.py lines 9-24) -/

deriving instance DecidableEq for Except

/-- The Python exceptions this embedding distinguishes.  `attributeError`
models calling `.get` on a value that has no such attribute (a plain
non-empty string); write failures surface as `RuntimeError` messages,
which we carry as plain strings. -/
inductive PyErr where
  | attributeError
deriving DecidableEq, Repr

/-- The shapes of value `safe_number_colval` can receive: Python `None`,
a plain string, or a Monday column-value dict carrying the keys
`value` (a JSON-encoded payload, possibly null) and `text` (a display
string, possibly null).  A real column dict always carries its `id` and
`type` keys as well, so a dict is always truthy; the empty dict
(falsy) behaves exactly like a dict with null `value` and `text` — both
produce 0.0 — so the model does not distinguish them. -/
inductive PyVal where
  | pyNone
  | pyStr (s : String)
  | pyDict (value : Option String) (text : Option String)
deriving DecidableEq, Repr

/-- Leading- and trailing-whitespace strip, as `float(...)` and
`json.loads(...)` perform on their string arguments. -/
def trimChars (l : List Char) : List Char :=
  ((l.dropWhile Char.isWhitespace).reverse.dropWhile Char.isWhitespace).reverse

/-- Value of a list of decimal digit characters. -/
def digitsVal (l : List Char) : ℕ :=
  l.foldl (fun a c => 10 * a + (c.toNat - 48)) 0

/-- Unsigned decimal mantissa, as accepted by Python `float`: digits with
at most one dot, at least one digit overall ("1", "1.", ".5", "1.25"). -/
def parseMantissa (l : List Char) : Option ℚ :=
  let a := l.takeWhile (fun c => c ≠ '.')
  let rest := l.drop a.length
  match rest with
  | [] => if a ≠ [] ∧ a.all Char.isDigit then some (digitsVal a) else none
  | _ :: b =>
    if (a ≠ [] ∨ b ≠ []) ∧ a.all Char.isDigit ∧ b.all Char.isDigit then
      some (qadd (digitsVal a) (qdiv (digitsVal b) (qpow 10 b.length)))
    else none

/-- Signed decimal integer (for exponents). -/
def parseSignedInt (l : List Char) : Option ℤ :=
  match l with
  | '+' :: r => if r ≠ [] ∧ r.all Char.isDigit then some (digitsVal r) else none
  | '-' :: r => if r ≠ [] ∧ r.all Char.isDigit then some (-(digitsVal r : ℤ)) else none
  | r => if r ≠ [] ∧ r.all Char.isDigit then some (digitsVal r) else none

/-- Scale a mantissa by a signed power of ten. -/
def applyExp (q : ℚ) (e : ℤ) : ℚ :=
  if 0 ≤ e then qmul q (qpow 10 e.toNat) else qdiv q (qpow 10 (-e).toNat)

/-- Unsigned float literal: mantissa with optional `e`/`E` exponent. -/
def pyFloatCore (l : List Char) : Option ℚ :=
  let m := l.takeWhile (fun c => c ≠ 'e' ∧ c ≠ 'E')
  let rest := l.drop m.length
  match rest with
  | [] => parseMantissa m
  | _ :: ex =>
    (parseMantissa m).bind fun q =>
      (parseSignedInt ex).map fun e => applyExp q e

/-- Python `float(str)` on decimal literals: strip whitespace, optional
sign, mantissa, optional exponent.  (`inf`/`nan` literals are not
modelled: ℚ has no such values and no claim depends on them.) -/
def pyFloatChars (l : List Char) : Option ℚ :=
  let cs := trimChars l
  match cs with
  | '+' :: rest => pyFloatCore rest
  | '-' :: rest => (pyFloatCore rest).map qneg
  | _ => pyFloatCore cs

/-- Python `float(s)` for a string `s`. -/
def pyFloat (s : String) : Option ℚ :=
  pyFloatChars s.toList

/-- JSON number grammar, exponent tail: empty, or e/E, optional sign,
one or more digits. -/
def jsonExpPart (l : List Char) : Bool :=
  match l with
  | [] => true
  | c :: rest =>
    if c = 'e' ∨ c = 'E' then
      let rest2 := match rest with
        | '+' :: r => r
        | '-' :: r => r
        | r => r
      rest2 ≠ [] ∧ rest2.all Char.isDigit
    else false

/-- JSON number grammar, fraction-and-exponent tail: empty, or a dot with
one or more digits followed by the exponent tail, or directly the
exponent tail. -/
def jsonFracPart (l : List Char) : Bool :=
  match l with
  | '.' :: rest =>
    let ds := rest.takeWhile Char.isDigit
    ds ≠ [] ∧ jsonExpPart (rest.drop ds.length)
  | l2 => jsonExpPart l2

/-- JSON number grammar: optional minus, `0` or a nonzero-led digit run,
then fraction and exponent tails. -/
def isJsonNumberChars (l : List Char) : Bool :=
  let cs := match l with
    | '-' :: rest => rest
    | l2 => l2
  match cs with
  | [] => false
  | c :: rest =>
    if c = '0' then jsonFracPart rest
    else if c.isDigit then jsonFracPart (rest.dropWhile Char.isDigit)
    else false

/-- Model of `float(json.loads(s))`: a JSON string payload is unquoted
and converted with `float`; JSON `true`/`false` convert to 1.0/0.0
(Python bools are ints); a JSON number converts to itself; everything
else (null, arrays, objects, malformed text) makes one of the two calls
raise, which the caller swallows. -/
def jsonPayloadNumber (s : String) : Option ℚ :=
  let cs := trimChars s.toList
  match cs with
  | '"' :: rest =>
    match rest.getLast? with
    | some '"' => pyFloatChars rest.dropLast
    | _ => none
  | _ =>
    if cs = ['t', 'r', 'u', 'e'] then some 1
    else if cs = ['f', 'a', 'l', 's', 'e'] then some 0
    else if isJsonNumberChars cs then pyFloatChars cs
    else none

/-- `text.replace(",", "")`: remove every comma (the pattern is a single
character, so replacement by the empty string is a filter). -/
def stripCommas (t : String) : String :=
  String.mk (t.toList.filter (fun c => c ≠ ','))

/-- Lines 20-24 of irr_engine.py: the text branch of
`safe_number_colval` — `float(text.replace(",", "")) if text else 0.0`
inside a `try`, any exception degrading to 0.0. -/
def textFallback (text : Option String) : Except PyErr ℚ :=
  match text with
  | none => Except.ok 0
  | some t =>
    if t = "" then Except.ok 0
    else
      match pyFloat (stripCommas t) with
      | some q => Except.ok q
      | none => Except.ok 0

/-- Lines 9-24 of irr_engine.py: `safe_number_colval(column_value)`.
A falsy input (None, empty string) returns 0.0.  On a dict, a truthy
`value` payload is decoded with `json.loads` then `float`, any failure
falling through to the text branch.  A truthy plain string raises
`AttributeError` at `column_value.get("value")`: `str` has no `get`
method. -/
def safe_number_colval (column_value : PyVal) : Except PyErr ℚ :=
  match column_value with
  | .pyNone => Except.ok 0
  | .pyStr s => if s = "" then Except.ok 0 else Except.error PyErr.attributeError
  | .pyDict value text =>
    match value with
    | some v =>
      if v = "" then textFallback text
      else
        match jsonPayloadNumber v with
        | some q => Except.ok q
        | none => textFallback text
    | none => textFallback text

/-- The input shapes on which `safe_number_colval` cannot raise: absent
input, the empty string, or any column dict. -/
def admissible (v : PyVal) : Prop :=
  match v with
  | .pyStr s => s = ""
  | _ => True

/-! ## Retry policy: `http_post_with_retries` (irr_engine.py lines 26-38) -/

/-- Trace of one `http_post_with_retries` call: the value returned (or
the terminal `RuntimeError` message raised; `none` only in the
degenerate `max_retries = 0` case, where the Python loop body never
runs and the function falls through returning `None`), the sleeps
performed between consecutive failed attempts, in order, and the number
of attempts actually made. -/
structure RetryTrace (α : Type) where
  result : Option (Except String α)
  sleeps : List ℕ
  attempts : ℕ
deriving DecidableEq, Repr

/-- The retry loop of lines 27-38, unrolled on the number of remaining
loop iterations.  `post k` is the outcome of the k-th network attempt
(`requests.post` + `raise_for_status`, all exceptions as `.error`).
On a failure with at least two iterations left, sleep `delay`, double
it, and continue; on a failure in the last iteration, raise
`RuntimeError` with the message of line 38. -/
def retryGo {α : Type} (post : ℕ → Except String α) (maxRetries : ℕ) :
    ℕ → ℕ → ℕ → RetryTrace α
  | _, _, 0 => ⟨none, [], 0⟩
  | attempt, _, 1 =>
    match post attempt with
    | .ok r => ⟨some (.ok r), [], 1⟩
    | .error e =>
      ⟨some (.error ("HTTP request failed after " ++ toString maxRetries ++ " attempts: " ++ e)),
        [], 1⟩
  | attempt, delay, remaining + 2 =>
    match post attempt with
    | .ok r => ⟨some (.ok r), [], 1⟩
    | .error _ =>
      let t := retryGo post maxRetries (attempt + 1) (delay * 2) (remaining + 1)
      ⟨t.result, delay :: t.sleeps, t.attempts + 1⟩

/-- Lines 26-38 of irr_engine.py: `http_post_with_retries`, starting at
attempt 0 with delay 1.  Both call sites of the program (the batch
fetch at line 77 and the per-record write at line 180) use the default
bound `max_retries = 5`. -/
def http_post_with_retries {α : Type} (post : ℕ → Except String α) (max_retries : ℕ) :
    RetryTrace α :=
  retryGo post max_retries 0 1 max_retries

/-- True exactly on a network-attempt failure. -/
def isNetError {α : Type} (x : Except String α) : Bool :=
  match x with
  | .error _ => true
  | .ok _ => false

/-- True exactly when a finished retry trace raised the terminal
`RuntimeError`. -/
def isTerminalFailure {α : Type} (res : Option (Except String α)) : Bool :=
  match res with
  | some (.error _) => true
  | _ => false

/-! ## Column identifiers (irr_engine.py lines 93-116) -/

def COL_NOI : String := "numeric_mkxam1rv"
def COL_TOTAL_PROJECT_COST : String := "numeric_mkx8vtv"
def COL_LOAN_AMOUNT : String := "numeric_mkx856za"
def COL_MARKET_CAP_RATE : String := "numeric_mkxam49"
def COL_EXIT_CAP_RATE : String := "numeric_mkxarhhr"
def COL_YEAR_1_CF : String := "numeric_mkxary42"
def COL_EQUITY_INVESTMENT : String := "numeric_mkxapdxt"
def COL_CAP_RATE : String := "numeric_mkxasdx8"
def COL_LTV : String := "numeric_mkxa901y"
def COL_YIELD_ON_COST : String := "numeric_mkxagcrj"
def COL_SPREAD : String := "numeric_mkxa1nb4"
def COL_REVERSION_VALUE : String := "numeric_mkxaacq4"
def COL_CASH_ON_CASH : String := "numeric_mkxahsqj"
def COL_IRR : String := "numeric_mkxav001"
def COL_EQUITY_MULTIPLE : String := "numeric_mkxag7qd"
def COL_YEAR_2_CF : String := "numeric_mkxavbzw"
def COL_YEAR_3_CF : String := "numeric_mkxadz1f"
def COL_YEAR_4_CF : String := "numeric_mkxasbp9"
def COL_YEAR_5_CF : String := "numeric_mkxarrfz"
def COL_SALE_PROCEEDS : String := "numeric_mkxaaxrp"

/-! ## Records, input extraction, cash-flow vector (lines 118-133, 144) -/

/-- One record (a Monday item): identifier, display name, and its
column values keyed by column id (line 119 builds exactly this map,
`cv_dict`, from the fetched list). -/
structure Item where
  id : String
  name : String
  column_values : List (String × PyVal)
deriving DecidableEq, Repr

/-- `cv_dict.get(col)`: the column dict for a key, or None if absent. -/
def dictGet (cv : List (String × PyVal)) (k : String) : PyVal :=
  (List.lookup k cv).getD PyVal.pyNone

/-- The per-record scalar inputs read at lines 122-133.
`equity_investment` already carries the `abs(...)` of line 128, so it is
a non-negative magnitude. -/
structure RawInputs where
  noi : ℚ
  total_project_cost : ℚ
  loan_amount : ℚ
  market_cap_rate : ℚ
  exit_cap_rate : ℚ
  year_1_cf : ℚ
  equity_investment : ℚ
  y2 : ℚ
  y3 : ℚ
  y4 : ℚ
  y5 : ℚ
  sale : ℚ
deriving DecidableEq, Repr

/-- Lines 122-133 of irr_engine.py: read the twelve inputs through
`safe_number_colval`, in source order, with `abs` applied to the equity
investment (line 128).  Each call can raise, which propagates to the
per-record handler. -/
def extractInputs (cv : List (String × PyVal)) : Except PyErr RawInputs :=
  (safe_number_colval (dictGet cv COL_NOI)).bind fun noi =>
  (safe_number_colval (dictGet cv COL_TOTAL_PROJECT_COST)).bind fun total_project_cost =>
  (safe_number_colval (dictGet cv COL_LOAN_AMOUNT)).bind fun loan_amount =>
  (safe_number_colval (dictGet cv COL_MARKET_CAP_RATE)).bind fun market_cap_rate =>
  (safe_number_colval (dictGet cv COL_EXIT_CAP_RATE)).bind fun exit_cap_rate =>
  (safe_number_colval (dictGet cv COL_YEAR_1_CF)).bind fun year_1_cf =>
  (safe_number_colval (dictGet cv COL_EQUITY_INVESTMENT)).bind fun equity_raw =>
  (safe_number_colval (dictGet cv COL_YEAR_2_CF)).bind fun y2 =>
  (safe_number_colval (dictGet cv COL_YEAR_3_CF)).bind fun y3 =>
  (safe_number_colval (dictGet cv COL_YEAR_4_CF)).bind fun y4 =>
  (safe_number_colval (dictGet cv COL_YEAR_5_CF)).bind fun y5 =>
  (safe_number_colval (dictGet cv COL_SALE_PROCEEDS)).bind fun sale =>
  Except.ok ⟨noi, total_project_cost, loan_amount, market_cap_rate, exit_cap_rate,
    year_1_cf, qabs equity_raw, y2, y3, y4, y5, sale⟩

/-- Line 144 of irr_engine.py: the cash-flow vector
`[-equity_investment, year_1_cf, y2, y3, y4, y5 + sale]` (the equity
field already holds the absolute value taken at line 128). -/
def buildCashflows (i : RawInputs) : List ℚ :=
  [qneg i.equity_investment, i.year_1_cf, i.y2, i.y3, i.y4, qadd i.y5 i.sale]

/-! ## IRRSolver

Modelled from the spec: the program delegates the root finding to the
external `numpy_financial.irr` library (line 145), which is not part of
this repository; spec §4.3 defines the solver this embedding uses.
NPV(r) = Σ cashflows[t] / (1+r)^t; Newton–Raphson seeded at r₀ = 0.1;
convergence when |NPV(r)| < ε = 1e-7; at most 100 iterations, absent on
non-convergence; a step that would drive r ≤ -1 + δ is clamped (the
spec offers clamping or a bracketing fallback; we take the clamp, with
δ = 1e-6); no sign change in the vector → absent. -/

/-- Modelled from the spec: NPV(r) = Σ_t cashflows[t] / (1+r)^t. -/
def npv (cf : List ℚ) (r : ℚ) : ℚ :=
  qsum (cf.enum.map (fun p => qdiv p.2 (qpow (qadd 1 r) p.1)))

/-- Modelled from the spec: NPV'(r) = Σ_t -t·cashflows[t]/(1+r)^{t+1}. -/
def npvDeriv (cf : List ℚ) (r : ℚ) : ℚ :=
  qsum (cf.enum.map (fun p => qdiv (qmul (qneg (p.1 : ℚ)) p.2) (qpow (qadd 1 r) (p.1 + 1))))

/-- Modelled from the spec: the convergence tolerance ε = 1e-7. -/
def irrEps : ℚ := mkRat 1 10000000

/-- Modelled from the spec: the pole guard δ = 1e-6. -/
def irrDelta : ℚ := mkRat 1 1000000

/-- Modelled from the spec: the Newton–Raphson loop.  Stop with the
current rate once |NPV| < ε; return absent when the iteration budget is
exhausted; clamp a step that would leave the domain r > -1. -/
def newtonIter (cf : List ℚ) : ℕ → ℚ → Option ℚ
  | 0, _ => none
  | fuel + 1, r =>
    if qabs (npv cf r) < irrEps then some r
    else
      let step := qsub r (qdiv (npv cf r) (npvDeriv cf r))
      let next := if step ≤ qadd (-1) irrDelta then qadd (-1) irrDelta else step
      newtonIter cf fuel next

/-- Modelled from the spec: the vector has entries of both signs, i.e.
at least one sign change (`cf.any (0 < ·) && cf.any (· < 0)`). -/
def hasSignChange (cf : List ℚ) : Bool :=
  cf.any (fun x => 0 < x) && cf.any (fun x => x < 0)

/-- Modelled from the spec: `IRRSolver.solve`.  No sign change → no
finite IRR exists → absent; otherwise Newton–Raphson from r₀ = 0.1 with
at most 100 iterations. -/
def irrSolve (cf : List ℚ) : Option ℚ :=
  if hasSignChange cf then newtonIter cf 100 (mkRat 1 10) else none

/-! ## MetricsEngine (irr_engine.py lines 136-147) -/

/-- The eight computed metrics of lines 136-147; `none` is Python
`None`, the tagged no-value result for an ineligible metric.
`irr_value` is the solver rate ×100 with the solver's no-root outcome
(`nan` from the library, `none` in this model) mapped to `None`
(line 146). -/
structure MetricResult where
  cap_rate : Option ℚ
  ltv : Option ℚ
  yield_on_cost : Option ℚ
  spread : Option ℚ
  reversion_value : Option ℚ
  cash_on_cash : Option ℚ
  irr_value : Option ℚ
  em : Option ℚ
deriving DecidableEq, Repr

/-- Lines 136-147 of irr_engine.py: the metric formulas with their
eligibility guards, the cash-flow vector of line 144, the IRR of lines
145-146 and the equity multiple of line 147. -/
def computeMetrics (i : RawInputs) : MetricResult :=
  let cap_rate := if i.total_project_cost > 0
    then some (qmul (qdiv i.noi i.total_project_cost) 100) else none
  let ltv := if i.total_project_cost > 0
    then some (qmul (qdiv i.loan_amount i.total_project_cost) 100) else none
  let yield_on_cost := if i.total_project_cost > 0
    then some (qmul (qdiv i.noi i.total_project_cost) 100) else none
  let spread := match yield_on_cost with
    | some y => if i.market_cap_rate > 0 then some (qsub y i.market_cap_rate) else none
    | none => none
  let reversion_value := if i.exit_cap_rate > 0
    then some (qdiv i.noi (qdiv i.exit_cap_rate 100)) else none
  let cash_on_cash := if i.equity_investment > 0
    then some (qmul (qdiv i.year_1_cf i.equity_investment) 100) else none
  let cashflows := buildCashflows i
  let irr_value := (irrSolve cashflows).map (fun r => qmul r 100)
  let em := if i.equity_investment > 0
    then some (qdiv (qsum (cashflows.drop 1)) i.equity_investment) else none
  ⟨cap_rate, ltv, yield_on_cost, spread, reversion_value, cash_on_cash, irr_value, em⟩

/-! ## Output field map (irr_engine.py lines 150-166) -/

/-- Floor of a rational (the denominator is positive, so `Int.fdiv` of
the numerator by the denominator is the floor). -/
def qfloorZ (x : ℚ) : ℤ := x.num.fdiv x.den

/-- Round to the nearest integer, ties to even — the rounding behaviour
of float formatting.  (Binary-float artifacts, such as `-0.00` or a
tie that is not exactly representable, are not modelled; no claim
depends on them.) -/
def roundHalfEven (x : ℚ) : ℤ :=
  let f := qfloorZ x
  let frac := qsub x (f : ℚ)
  if frac < mkRat 1 2 then f
  else if mkRat 1 2 < frac then f + 1
  else if f % 2 = 0 then f else f + 1

/-- Python `f"..:.2f"` two-decimal formatting of a value. -/
def formatTwoDec (x : ℚ) : String :=
  let n := roundHalfEven (qmul x 100)
  let m := n.natAbs
  (if n < 0 then "-" else "") ++ toString (m / 100) ++ "." ++
    (if m % 100 < 10 then "0" else "") ++ toString (m % 100)

/-- Assemble the entries of an association list from optional values:
a pair with a present value contributes its two-decimal formatted
entry, a pair with `none` contributes nothing. -/
def optEntries (l : List (String × Option ℚ)) : List (String × String) :=
  l.filterMap (fun p => p.2.map (fun v => (p.1, formatTwoDec v)))

/-- Lines 150-166 of irr_engine.py: the `column_values` map sent in the
mutation.  Each metric's field is added only under `if x is not None`,
in source order — an ineligible metric contributes no entry at all. -/
def buildColumnValues (m : MetricResult) : List (String × String) :=
  optEntries [(COL_CAP_RATE, m.cap_rate), (COL_LTV, m.ltv),
    (COL_YIELD_ON_COST, m.yield_on_cost), (COL_SPREAD, m.spread),
    (COL_REVERSION_VALUE, m.reversion_value), (COL_CASH_ON_CASH, m.cash_on_cash),
    (COL_IRR, m.irr_value), (COL_EQUITY_MULTIPLE, m.em)]

/-! ## Per-record loop (irr_engine.py lines 118-190) -/

/-- The GraphQL response body of a write whose HTTP layer succeeded:
`hasErrors` models `"errors" in update_data` (line 186). -/
structure WriteResp where
  hasErrors : Bool
deriving DecidableEq, Repr

/-- Per-record outcome: `updated` (write issued and HTTP-accepted; the
flag records whether line 187 printed a GraphQL error from the body),
`skipped` (dry-run: the would-be mutation was printed, line 178), or
`failed` (the per-record `except` of lines 189-190 caught an exception
and printed it with its reason). -/
inductive Outcome where
  | updated (gqlErrors : Bool)
  | skipped
  | failed (reason : String)
deriving DecidableEq, Repr

/-- True exactly on a `failed` outcome. -/
def isFailed : Outcome → Bool
  | .failed _ => true
  | _ => false

/-- Rendering of a modelled Python exception, as printed by line 190. -/
def pyErrString : PyErr → String
  | .attributeError => "AttributeError"

/-- What one iteration of the loop of lines 118-190 did to its record:
the outcome, the number of network write attempts actually made, the
payloads of the write calls issued (empty in dry-run), and the field
map printed as the would-be mutation in dry-run mode. -/
structure ProcResult where
  outcome : Outcome
  netCalls : ℕ
  sent : List (List (String × String))
  wouldSend : Option (List (String × String))
deriving DecidableEq, Repr

/-- One iteration of the per-record loop (lines 120-190): extract the
inputs, compute the metrics, build the `column_values` map; in dry-run
print the would-be mutation and stop; otherwise write through
`http_post_with_retries` (bound 5), report a GraphQL body error only by
printing.  Any exception — an extraction error, or the terminal
`RuntimeError` of an exhausted write — is caught by lines 189-190,
becoming a `failed` outcome without escaping the loop.  `post k` is the
outcome of the k-th network attempt of this record's write. -/
def processItem (post : ℕ → Except String WriteResp) (dry_run : Bool) (item : Item) :
    ProcResult :=
  match extractInputs item.column_values with
  | .error e => ⟨.failed (pyErrString e), 0, [], none⟩
  | .ok inputs =>
    let column_values := buildColumnValues (computeMetrics inputs)
    if dry_run then ⟨.skipped, 0, [], some column_values⟩
    else
      let t := http_post_with_retries post 5
      match t.result with
      | some (.ok resp) => ⟨.updated resp.hasErrors, t.attempts, [column_values], none⟩
      | some (.error msg) => ⟨.failed msg, t.attempts, [column_values], none⟩
      | none => ⟨.failed "", t.attempts, [column_values], none⟩  -- unreachable at bound 5

/-- The loop of line 118 over the fetched batch: each record is
processed independently, the per-record `except` guaranteeing the loop
always advances to the next record.  `net` gives each record's write
oracle. -/
def processItems (net : Item → ℕ → Except String WriteResp) (dry_run : Bool)
    (items : List Item) : List ProcResult :=
  items.map (fun it => processItem (net it) dry_run it)

/-! ## Concrete objects used by witnesses -/

/-- The all-zero inputs (every column absent parses to 0.0). -/
def zeroRawInputs : RawInputs := ⟨0, 0, 0, 0, 0, 0, 0, 0, 0, 0, 0, 0⟩

def itemA : Item := ⟨"1001", "A", []⟩
def itemB : Item := ⟨"1002", "B", []⟩
def itemC : Item := ⟨"1003", "C", []⟩

/-- A network in which every write attempt for record "B" fails and
every other write succeeds at once with a clean body. -/
def netW (it : Item) (_ : ℕ) : Except String WriteResp :=
  if it.name = "B" then Except.error "connection reset" else Except.ok ⟨false⟩

/-- A network whose first attempt succeeds at the HTTP layer but whose
response body carries a GraphQL `errors` key. -/
def postW (_ : ℕ) : Except String WriteResp := Except.ok ⟨true⟩

/-- A network failing on attempts 0 and 1 and succeeding on attempt 2. -/
def postTwoFail (k : ℕ) : Except String ℕ :=
  if k = 2 then Except.ok 7 else Except.error "boom"

example : safe_number_colval PyVal.pyNone = Except.ok 0 := rfl
example : safe_number_colval (PyVal.pyStr "") = Except.ok 0 := rfl
example : safe_number_colval (PyVal.pyStr "1,234.50") = Except.error PyErr.attributeError := rfl
example : safe_number_colval (PyVal.pyDict none (some "1,234.50")) = Except.ok (mkRat 2469 2) := by decide
example : safe_number_colval (PyVal.pyDict (some "\"250000\"") none) = Except.ok (250000 : ℚ) := by decide
example : safe_number_colval (PyVal.pyDict (some "12.5") none) = Except.ok (mkRat 25 2) := by decide
example : safe_number_colval (PyVal.pyDict (some "1.2e3") none) = Except.ok (1200 : ℚ) := by decide
example : safe_number_colval (PyVal.pyDict (some "xyz") (some "abc")) = Except.ok 0 := by decide
example : safe_number_colval (PyVal.pyDict (some "null") (some "-1,000")) = Except.ok (-1000 : ℚ) := by decide
example : mkRat 2469 2 = (1234.5 : ℚ) := by norm_num [Rat.mkRat_eq_div]

/-! ## Bridges: the computable wrappers are the ℚ field operations -/

theorem num_eq_self_mul_den (a : ℚ) : (a.num : ℚ) = a * (a.den : ℚ) :=
  (div_eq_iff (by positivity)).mp (Rat.num_div_den a)

theorem qadd_eq (a b : ℚ) : qadd a b = a + b := by
  rw [qadd, Rat.mkRat_eq_divInt, Rat.divInt_eq_div]
  push_cast
  rw [div_eq_iff (show ((a.den : ℚ) * (b.den : ℚ)) ≠ 0 by positivity)]
  rw [num_eq_self_mul_den a, num_eq_self_mul_den b]
  ring

theorem qneg_eq (a : ℚ) : qneg a = -a := by
  rw [qneg, Rat.mkRat_eq_divInt, Rat.divInt_eq_div]
  push_cast
  rw [div_eq_iff (show ((a.den : ℚ)) ≠ 0 by positivity)]
  rw [num_eq_self_mul_den a]
  ring

theorem qsub_eq (a b : ℚ) : qsub a b = a - b := by
  rw [qsub, qadd_eq, qneg_eq, sub_eq_add_neg]

theorem qmul_eq (a b : ℚ) : qmul a b = a * b := by
  rw [qmul, Rat.mkRat_eq_divInt, Rat.divInt_eq_div]
  push_cast
  rw [div_eq_iff (show ((a.den : ℚ) * (b.den : ℚ)) ≠ 0 by positivity)]
  rw [num_eq_self_mul_den a, num_eq_self_mul_den b]
  ring

theorem qdiv_eq (a b : ℚ) : qdiv a b = a / b := by
  rcases eq_or_ne b 0 with rfl | hb
  · simp [qdiv, Rat.divInt_eq_div]
  · rw [qdiv, Rat.divInt_eq_div]
    push_cast
    have hbn : ((b.num : ℚ)) ≠ 0 := by
      exact_mod_cast fun h => hb (Rat.num_eq_zero.mp (by exact_mod_cast h))
    rw [div_eq_div_iff (show ((a.den : ℚ) * (b.num : ℚ)) ≠ 0 by positivity) hb]
    rw [num_eq_self_mul_den a, num_eq_self_mul_den b]
    ring

theorem qabs_eq (a : ℚ) : qabs a = |a| := by
  rw [qabs, Rat.mkRat_eq_divInt, Rat.divInt_eq_div]
  push_cast [Int.cast_natAbs]
  rw [← abs_of_pos (show (0:ℚ) < (a.den : ℚ) by positivity), ← abs_div, Rat.num_div_den]

theorem qpow_eq (a : ℚ) (n : ℕ) : qpow a n = a ^ n := by
  induction n with
  | zero => simp [qpow]
  | succ n ih => rw [qpow, qmul_eq, ih, pow_succ]

theorem qsum_eq (l : List ℚ) : qsum l = l.sum := by
  induction l with
  | nil => simp [qsum]
  | cons x t ih => simp only [qsum, List.foldr_cons, List.sum_cons, qadd_eq] at ih ⊢; rw [ih]

/-! ## Plumbing lemmas -/

theorem except_bind_ok {α β : Type} {x : Except PyErr α} {f : α → Except PyErr β} {b : β}
    (h : x.bind f = Except.ok b) : ∃ a, x = Except.ok a ∧ f a = Except.ok b := by
  cases x with
  | error e => simp [Except.bind] at h
  | ok a => exact ⟨a, rfl, by simpa [Except.bind] using h⟩

theorem range_map_double (d k : ℕ) :
    d :: (List.range k).map (fun j => d * 2 * 2 ^ j) =
      (List.range (k + 1)).map (fun j => d * 2 ^ j) := by
  rw [List.range_succ_eq_map, List.map_cons, List.map_map]
  refine congrArg₂ List.cons (by simp) ?_
  refine List.map_congr_left (fun j hj => ?_)
  simp [Function.comp, pow_succ]
  ring

/-! ## Retry-loop lemmas -/

theorem retryGo_attempts_le {α : Type} (post : ℕ → Except String α) (m : ℕ) :
    ∀ rem a d, (retryGo post m a d rem).attempts ≤ rem := by
  intro rem
  induction rem using Nat.strong_induction_on with
  | _ rem ih =>
    match rem with
    | 0 => intro a d; simp [retryGo]
    | 1 =>
      intro a d
      cases h : post a <;> simp [retryGo, h]
    | r + 2 =>
      intro a d
      cases h : post a with
      | ok v => simp [retryGo, h]
      | error e =>
        have hrec := ih (r + 1) (by omega) (a + 1) (d * 2)
        simp only [retryGo, h]
        omega

theorem retryGo_success {α : Type} (post : ℕ → Except String α) (m : ℕ) :
    ∀ k a d rem, k < rem →
      (∀ j, j < k → isNetError (post (a + j)) = true) →
      ∀ r, post (a + k) = Except.ok r →
      retryGo post m a d rem =
        ⟨some (Except.ok r), (List.range k).map (fun j => d * 2 ^ j), k + 1⟩ := by
  intro k
  induction k with
  | zero =>
    intro a d rem hlt hfail r hok
    rw [Nat.add_zero] at hok
    match rem, hlt with
    | 1, _ => simp [retryGo, hok]
    | rr + 2, _ => simp [retryGo, hok]
  | succ k ihk =>
    intro a d rem hlt hfail r hok
    have h0 : isNetError (post a) = true := by
      have := hfail 0 (Nat.succ_pos k)
      rwa [Nat.add_zero] at this
    obtain ⟨e, he⟩ : ∃ e, post a = Except.error e := by
      cases hpa : post a with
      | error e => exact ⟨e, rfl⟩
      | ok v => rw [hpa] at h0; simp [isNetError] at h0
    match rem, hlt with
    | rr + 2, _ =>
      have hrec := ihk (a + 1) (d * 2) (rr + 1) (by omega)
        (fun j hj => by
          have := hfail (j + 1) (by omega)
          rwa [show a + (j + 1) = a + 1 + j by omega] at this)
        r (by rwa [show a + 1 + k = a + (k + 1) by omega])
      simp only [retryGo, he, hrec]
      rw [← range_map_double]

theorem retryGo_all_fail {α : Type} (post : ℕ → Except String α) (m : ℕ) :
    ∀ rem a d, 1 ≤ rem →
      (∀ j, j < rem → isNetError (post (a + j)) = true) →
      (retryGo post m a d rem).sleeps = (List.range (rem - 1)).map (fun j => d * 2 ^ j) ∧
      (retryGo post m a d rem).attempts = rem ∧
      isTerminalFailure (retryGo post m a d rem).result = true := by
  intro rem
  induction rem using Nat.strong_induction_on with
  | _ rem ih =>
    match rem with
    | 0 => intro a d h1; omega
    | 1 =>
      intro a d h1 hfail
      obtain ⟨e, he⟩ : ∃ e, post a = Except.error e := by
        have h0 := hfail 0 (by omega)
        rw [Nat.add_zero] at h0
        cases hpa : post a with
        | error e => exact ⟨e, rfl⟩
        | ok v => rw [hpa] at h0; simp [isNetError] at h0
      simp [retryGo, he, isTerminalFailure]
    | r + 2 =>
      intro a d h1 hfail
      obtain ⟨e, he⟩ : ∃ e, post a = Except.error e := by
        have h0 := hfail 0 (by omega)
        rw [Nat.add_zero] at h0
        cases hpa : post a with
        | error e => exact ⟨e, rfl⟩
        | ok v => rw [hpa] at h0; simp [isNetError] at h0
      obtain ⟨hs, hn, ht⟩ := ih (r + 1) (by omega) (a + 1) (d * 2) (by omega)
        (fun j hj => by
          have := hfail (j + 1) (by omega)
          rwa [show a + (j + 1) = a + 1 + j by omega] at this)
      refine ⟨?_, ?_, ?_⟩
      · simp only [retryGo, he, hs]
        have : r + 1 - 1 = r := by omega
        rw [this, show r + 2 - 1 = r + 1 by omega, range_map_double]
      · simp only [retryGo, he]
        omega
      · simp only [retryGo, he]
        exact ht

theorem retryGo_error_all_fail {α : Type} (post : ℕ → Except String α) (m : ℕ) :
    ∀ rem a d, isTerminalFailure (retryGo post m a d rem).result = true →
      ∀ j, j < rem → isNetError (post (a + j)) = true := by
  intro rem
  induction rem using Nat.strong_induction_on with
  | _ rem ih =>
    match rem with
    | 0 => intro a d hterm; simp [retryGo, isTerminalFailure] at hterm
    | 1 =>
      intro a d hterm j hj
      interval_cases j
      rw [Nat.add_zero]
      cases hpa : post a with
      | error e => simp [isNetError, hpa]
      | ok v => simp [retryGo, hpa, isTerminalFailure] at hterm
    | r + 2 =>
      intro a d hterm j hj
      cases hpa : post a with
      | ok v => simp [retryGo, hpa, isTerminalFailure] at hterm
      | error e =>
        match j with
        | 0 => rw [Nat.add_zero, hpa]; simp [isNetError]
        | j + 1 =>
          have hrec := ih (r + 1) (by omega) (a + 1) (d * 2)
            (by simpa only [retryGo, hpa] using hterm) j (by omega)
          rwa [show a + (j + 1) = a + 1 + j by omega]

/-! ## Field-map lookup lemmas -/

theorem lookup_optEntries_none (k : String) :
    ∀ l : List (String × Option ℚ), k ∉ l.map Prod.fst →
      (optEntries l).lookup k = none := by
  intro l
  induction l with
  | nil => intro _; rfl
  | cons p t ih =>
    intro hk
    obtain ⟨k1, o1⟩ := p
    simp only [List.map_cons, List.mem_cons] at hk
    push_neg at hk
    obtain ⟨hne, hnotin⟩ := hk
    have hbeq : (k == k1) = false := beq_eq_false_iff_ne.mpr hne
    cases o1 with
    | none => simpa [optEntries, List.filterMap_cons] using ih hnotin
    | some v =>
      simp only [optEntries, List.filterMap_cons, Option.map_some']
      rw [List.lookup, hbeq]
      exact ih hnotin

theorem lookup_optEntries_eq (k : String) (o : Option ℚ) :
    ∀ pre post2 : List (String × Option ℚ),
      k ∉ pre.map Prod.fst → k ∉ post2.map Prod.fst →
      (optEntries (pre ++ (k, o) :: post2)).lookup k = o.map formatTwoDec := by
  intro pre
  induction pre with
  | nil =>
    intro post2 _ hpost
    cases o with
    | none =>
      simpa [optEntries, List.filterMap_cons] using lookup_optEntries_none k post2 hpost
    | some v =>
      simp only [optEntries, List.nil_append, List.filterMap_cons, Option.map_some']
      rw [List.lookup, beq_self_eq_true]
  | cons p t ih =>
    intro post2 hpre hpost
    obtain ⟨k1, o1⟩ := p
    simp only [List.map_cons, List.mem_cons] at hpre
    push_neg at hpre
    obtain ⟨hne, hpre2⟩ := hpre
    have hbeq : (k == k1) = false := beq_eq_false_iff_ne.mpr hne
    cases o1 with
    | none =>
      simpa [optEntries, List.cons_append, List.filterMap_cons] using ih post2 hpre2 hpost
    | some v =>
      simp only [optEntries, List.cons_append, List.filterMap_cons, Option.map_some']
      rw [List.lookup, hbeq]
      exact ih post2 hpre2 hpost

theorem lookup_cv_cap_rate (m : MetricResult) :
    (buildColumnValues m).lookup COL_CAP_RATE = m.cap_rate.map formatTwoDec := by
  have h := lookup_optEntries_eq COL_CAP_RATE m.cap_rate []
    [(COL_LTV, m.ltv), (COL_YIELD_ON_COST, m.yield_on_cost), (COL_SPREAD, m.spread),
      (COL_REVERSION_VALUE, m.reversion_value), (COL_CASH_ON_CASH, m.cash_on_cash),
      (COL_IRR, m.irr_value), (COL_EQUITY_MULTIPLE, m.em)]
    (by simp) (by simp only [List.map_cons, List.map_nil]; decide)
  simpa [buildColumnValues] using h

theorem lookup_cv_ltv (m : MetricResult) :
    (buildColumnValues m).lookup COL_LTV = m.ltv.map formatTwoDec := by
  have h := lookup_optEntries_eq COL_LTV m.ltv
    [(COL_CAP_RATE, m.cap_rate)]
    [(COL_YIELD_ON_COST, m.yield_on_cost), (COL_SPREAD, m.spread),
      (COL_REVERSION_VALUE, m.reversion_value), (COL_CASH_ON_CASH, m.cash_on_cash),
      (COL_IRR, m.irr_value), (COL_EQUITY_MULTIPLE, m.em)]
    (by simp only [List.map_cons, List.map_nil]; decide)
    (by simp only [List.map_cons, List.map_nil]; decide)
  simpa [buildColumnValues] using h

theorem lookup_cv_yield_on_cost (m : MetricResult) :
    (buildColumnValues m).lookup COL_YIELD_ON_COST = m.yield_on_cost.map formatTwoDec := by
  have h := lookup_optEntries_eq COL_YIELD_ON_COST m.yield_on_cost
    [(COL_CAP_RATE, m.cap_rate), (COL_LTV, m.ltv)]
    [(COL_SPREAD, m.spread),
      (COL_REVERSION_VALUE, m.reversion_value), (COL_CASH_ON_CASH, m.cash_on_cash),
      (COL_IRR, m.irr_value), (COL_EQUITY_MULTIPLE, m.em)]
    (by simp only [List.map_cons, List.map_nil]; decide)
    (by simp only [List.map_cons, List.map_nil]; decide)
  simpa [buildColumnValues] using h

theorem lookup_cv_spread (m : MetricResult) :
    (buildColumnValues m).lookup COL_SPREAD = m.spread.map formatTwoDec := by
  have h := lookup_optEntries_eq COL_SPREAD m.spread
    [(COL_CAP_RATE, m.cap_rate), (COL_LTV, m.ltv), (COL_YIELD_ON_COST, m.yield_on_cost)]
    [(COL_REVERSION_VALUE, m.reversion_value), (COL_CASH_ON_CASH, m.cash_on_cash),
      (COL_IRR, m.irr_value), (COL_EQUITY_MULTIPLE, m.em)]
    (by simp only [List.map_cons, List.map_nil]; decide)
    (by simp only [List.map_cons, List.map_nil]; decide)
  simpa [buildColumnValues] using h

theorem lookup_cv_reversion_value (m : MetricResult) :
    (buildColumnValues m).lookup COL_REVERSION_VALUE = m.reversion_value.map formatTwoDec := by
  have h := lookup_optEntries_eq COL_REVERSION_VALUE m.reversion_value
    [(COL_CAP_RATE, m.cap_rate), (COL_LTV, m.ltv), (COL_YIELD_ON_COST, m.yield_on_cost),
      (COL_SPREAD, m.spread)]
    [(COL_CASH_ON_CASH, m.cash_on_cash), (COL_IRR, m.irr_value),
      (COL_EQUITY_MULTIPLE, m.em)]
    (by simp only [List.map_cons, List.map_nil]; decide)
    (by simp only [List.map_cons, List.map_nil]; decide)
  simpa [buildColumnValues] using h

theorem lookup_cv_cash_on_cash (m : MetricResult) :
    (buildColumnValues m).lookup COL_CASH_ON_CASH = m.cash_on_cash.map formatTwoDec := by
  have h := lookup_optEntries_eq COL_CASH_ON_CASH m.cash_on_cash
    [(COL_CAP_RATE, m.cap_rate), (COL_LTV, m.ltv), (COL_YIELD_ON_COST, m.yield_on_cost),
      (COL_SPREAD, m.spread), (COL_REVERSION_VALUE, m.reversion_value)]
    [(COL_IRR, m.irr_value), (COL_EQUITY_MULTIPLE, m.em)]
    (by simp only [List.map_cons, List.map_nil]; decide)
    (by simp only [List.map_cons, List.map_nil]; decide)
  simpa [buildColumnValues] using h

theorem lookup_cv_irr (m : MetricResult) :
    (buildColumnValues m).lookup COL_IRR = m.irr_value.map formatTwoDec := by
  have h := lookup_optEntries_eq COL_IRR m.irr_value
    [(COL_CAP_RATE, m.cap_rate), (COL_LTV, m.ltv), (COL_YIELD_ON_COST, m.yield_on_cost),
      (COL_SPREAD, m.spread), (COL_REVERSION_VALUE, m.reversion_value),
      (COL_CASH_ON_CASH, m.cash_on_cash)]
    [(COL_EQUITY_MULTIPLE, m.em)]
    (by simp only [List.map_cons, List.map_nil]; decide)
    (by simp only [List.map_cons, List.map_nil]; decide)
  simpa [buildColumnValues] using h

theorem lookup_cv_em (m : MetricResult) :
    (buildColumnValues m).lookup COL_EQUITY_MULTIPLE = m.em.map formatTwoDec := by
  have h := lookup_optEntries_eq COL_EQUITY_MULTIPLE m.em
    [(COL_CAP_RATE, m.cap_rate), (COL_LTV, m.ltv), (COL_YIELD_ON_COST, m.yield_on_cost),
      (COL_SPREAD, m.spread), (COL_REVERSION_VALUE, m.reversion_value),
      (COL_CASH_ON_CASH, m.cash_on_cash), (COL_IRR, m.irr_value)]
    []
    (by simp only [List.map_cons, List.map_nil]; decide)
    (by simp)
  simpa [buildColumnValues] using h

/-! ## Claim theorems -/

/-- C1: For every cash-flow vector whose entries all share the same sign
(including the degenerate all-zero equity case), the IRR solver returns
absent — not zero and not an error — so the record's output map carries
no IRR value at all. -/
theorem irr_no_sign_change_absent (i : RawInputs)
    (h : (∀ x ∈ buildCashflows i, 0 ≤ x) ∨ (∀ x ∈ buildCashflows i, x ≤ 0)) :
    irrSolve (buildCashflows i) = none ∧
    (computeMetrics i).irr_value = none ∧
    (buildColumnValues (computeMetrics i)).lookup COL_IRR = none := by
  have hssc : hasSignChange (buildCashflows i) = false := by
    rw [Bool.eq_false_iff]
    intro hT
    simp only [hasSignChange, Bool.and_eq_true, List.any_eq_true, decide_eq_true_eq] at hT
    obtain ⟨⟨xp, hxp, hxp0⟩, xn, hxn, hxn0⟩ := hT
    rcases h with hpos | hneg
    · exact absurd hxn0 (not_lt.mpr (hpos xn hxn))
    · exact absurd hxp0 (not_lt.mpr (hneg xp hxp))
  have hirr : irrSolve (buildCashflows i) = none := by simp [irrSolve, hssc]
  refine ⟨hirr, ?_, ?_⟩
  · simp [computeMetrics, hirr]
  · rw [lookup_cv_irr]
    simp [computeMetrics, hirr]

/-- Witness for C1 at the all-zero record. -/
theorem irr_no_sign_change_absent_witness :
    irrSolve (buildCashflows zeroRawInputs) = none ∧
    (computeMetrics zeroRawInputs).irr_value = none ∧
    (buildColumnValues (computeMetrics zeroRawInputs)).lookup COL_IRR = none :=
  irr_no_sign_change_absent zeroRawInputs (Or.inl (by decide))

/-- C2: On the cash-flow vector [-100, 110] the solver returns the exact
one-period analytic root 0.10 (well within the 1e-6 tolerance), which
the metrics step presents as the percentage "10.00". -/
theorem irr_one_period_root :
    ∃ r, irrSolve [(-100 : ℚ), 110] = some r ∧
      |r - 1 / 10| ≤ 1 / 1000000 ∧
      formatTwoDec (qmul r 100) = "10.00" ∧
      qmul r 100 = r * 100 := by
  refine ⟨mkRat 1 10, by decide, ?_, by decide, qmul_eq _ _⟩
  rw [show (mkRat 1 10 : ℚ) = 1 / 10 by norm_num [Rat.mkRat_eq_div]]
  norm_num

/-- C3: Whenever total_project_cost is not positive, cap rate, LTV and
yield on cost are all the tagged no-value result `none`, regardless of
every other input. -/
theorem metrics_tpc_nonpos_absent (i : RawInputs) (h : i.total_project_cost ≤ 0) :
    (computeMetrics i).cap_rate = none ∧
    (computeMetrics i).ltv = none ∧
    (computeMetrics i).yield_on_cost = none := by
  have hc : ¬ (i.total_project_cost > 0) := not_lt.mpr h
  refine ⟨?_, ?_, ?_⟩ <;> simp [computeMetrics, hc]

/-- Witness for C3: total_project_cost = 0 with every other input
nonzero. -/
theorem metrics_tpc_nonpos_absent_witness :
    (computeMetrics ⟨50, 0, 30, 2, 5, 10, 100, 10, 10, 10, 10, 20⟩).cap_rate = none ∧
    (computeMetrics ⟨50, 0, 30, 2, 5, 10, 100, 10, 10, 10, 10, 20⟩).ltv = none ∧
    (computeMetrics ⟨50, 0, 30, 2, 5, 10, 100, 10, 10, 10, 10, 20⟩).yield_on_cost = none :=
  metrics_tpc_nonpos_absent ⟨50, 0, 30, 2, 5, 10, 100, 10, 10, 10, 10, 20⟩ (by norm_num)

/-- C4 counterexample: on the all-zero record every metric is
ineligible and the output field map is the empty map — it contains no
entry and no clear marker for any of the eight metrics, refuting the
claim that each of the eight always has an entry. -/
theorem field_map_all_absent_cex :
    buildColumnValues (computeMetrics zeroRawInputs) = [] ∧
    (buildColumnValues (computeMetrics zeroRawInputs)).lookup COL_CAP_RATE = none := by
  exact ⟨by decide, by decide⟩

/-- C4 amended: the output field map contains an entry exactly for each
eligible metric — the two-decimal formatted value under that metric's
column id — and an ineligible metric's field is omitted from the map
(no entry, no clear marker). -/
theorem field_map_matches_eligibility (i : RawInputs) :
    (buildColumnValues (computeMetrics i)).lookup COL_CAP_RATE
      = (computeMetrics i).cap_rate.map formatTwoDec ∧
    (buildColumnValues (computeMetrics i)).lookup COL_LTV
      = (computeMetrics i).ltv.map formatTwoDec ∧
    (buildColumnValues (computeMetrics i)).lookup COL_YIELD_ON_COST
      = (computeMetrics i).yield_on_cost.map formatTwoDec ∧
    (buildColumnValues (computeMetrics i)).lookup COL_SPREAD
      = (computeMetrics i).spread.map formatTwoDec ∧
    (buildColumnValues (computeMetrics i)).lookup COL_REVERSION_VALUE
      = (computeMetrics i).reversion_value.map formatTwoDec ∧
    (buildColumnValues (computeMetrics i)).lookup COL_CASH_ON_CASH
      = (computeMetrics i).cash_on_cash.map formatTwoDec ∧
    (buildColumnValues (computeMetrics i)).lookup COL_IRR
      = (computeMetrics i).irr_value.map formatTwoDec ∧
    (buildColumnValues (computeMetrics i)).lookup COL_EQUITY_MULTIPLE
      = (computeMetrics i).em.map formatTwoDec :=
  ⟨lookup_cv_cap_rate _, lookup_cv_ltv _, lookup_cv_yield_on_cost _, lookup_cv_spread _,
    lookup_cv_reversion_value _, lookup_cv_cash_on_cash _, lookup_cv_irr _, lookup_cv_em _⟩

/-- C5 counterexample: on the plain non-empty string "1,234.50" the
parser raises AttributeError (`str` has no `get` method); it neither
returns 1234.5 nor any other value. -/
theorem numeric_parser_plain_string_raises :
    safe_number_colval (PyVal.pyStr "1,234.50") = Except.error PyErr.attributeError ∧
    safe_number_colval (PyVal.pyStr "1,234.50") ≠ Except.ok (1234.5 : ℚ) := by
  refine ⟨rfl, ?_⟩
  intro h
  rw [show safe_number_colval (PyVal.pyStr "1,234.50")
      = Except.error PyErr.attributeError from rfl] at h
  exact Except.noConfusion h

/-- A helper: the text branch never raises. -/
theorem textFallback_ok (t : Option String) : ∃ q, textFallback t = Except.ok q := by
  cases t with
  | none => exact ⟨0, rfl⟩
  | some s =>
    by_cases hs : s = ""
    · exact ⟨0, by simp [textFallback, hs]⟩
    · cases hp : pyFloat (stripCommas s) with
      | none => exact ⟨0, by simp [textFallback, hs, hp]⟩
      | some q => exact ⟨q, by simp [textFallback, hs, hp]⟩

/-- C5 amended: the parser is total over the shapes it admits — absent
input, the empty string, or a structured column value (a plain
non-empty string raises, see the counterexample).  parse(None) =
parse("") = 0.0; a structured value whose text is "1,234.50" parses to
1234.5; and whenever both the payload decode and the text conversion
fail, the result degrades to 0.0. -/
theorem numeric_parser_total_on_admitted :
    (∀ v : PyVal, admissible v → ∃ q, safe_number_colval v = Except.ok q) ∧
    safe_number_colval PyVal.pyNone = Except.ok 0 ∧
    safe_number_colval (PyVal.pyStr "") = Except.ok 0 ∧
    safe_number_colval (PyVal.pyDict none (some "1,234.50")) = Except.ok (1234.5 : ℚ) ∧
    (∀ ov ot, (∀ s, ov = some s → jsonPayloadNumber s = none) →
      (∀ t, ot = some t → pyFloat (stripCommas t) = none) →
      safe_number_colval (PyVal.pyDict ov ot) = Except.ok 0) := by
  refine ⟨?_, rfl, rfl, ?_, ?_⟩
  · intro v hv
    rcases v with _ | s | ⟨ov, ot⟩
    · exact ⟨0, rfl⟩
    · have hs : s = "" := hv
      subst hs
      exact ⟨0, rfl⟩
    · cases ov with
      | none => simpa [safe_number_colval] using textFallback_ok ot
      | some v =>
        by_cases hvs : v = ""
        · obtain ⟨q, hq⟩ := textFallback_ok ot
          exact ⟨q, by simp [safe_number_colval, hvs, hq]⟩
        · cases hj : jsonPayloadNumber v with
          | some q => exact ⟨q, by simp [safe_number_colval, hvs, hj]⟩
          | none =>
            obtain ⟨q, hq⟩ := textFallback_ok ot
            exact ⟨q, by simp [safe_number_colval, hvs, hj, hq]⟩
  · rw [show safe_number_colval (PyVal.pyDict none (some "1,234.50"))
        = Except.ok (mkRat 2469 2) by decide]
    rw [show (mkRat 2469 2 : ℚ) = 1234.5 by norm_num [Rat.mkRat_eq_div]]
  · intro ov ot hv ht
    have htf : textFallback ot = Except.ok 0 := by
      cases ot with
      | none => rfl
      | some t =>
        by_cases hts : t = ""
        · simp [textFallback, hts]
        · simp [textFallback, hts, ht t rfl]
    cases ov with
    | none => simpa [safe_number_colval] using htf
    | some v =>
      by_cases hvs : v = ""
      · simpa [safe_number_colval, hvs] using htf
      · simpa [safe_number_colval, hvs, hv v rfl] using htf

/-- Witness for C5 (amended): a structured value whose payload and text
both fail to parse degrades to 0.0. -/
theorem numeric_parser_total_on_admitted_witness :
    safe_number_colval (PyVal.pyDict (some "xyz") (some "abc")) = Except.ok 0 :=
  numeric_parser_total_on_admitted.2.2.2.2 (some "xyz") (some "abc")
    (fun s hs => by cases hs; decide)
    (fun t ht => by cases ht; decide)

/-- C6: The batch loop isolates failures: the outcome list has one entry
per record, each record's result is a function of that record (and its
own network) alone, the number of failed outcomes counts exactly the
records whose own processing failed, and a record whose write fails
after all retries ends as `failed` — while every other record's entry
is untouched. -/
theorem sync_loop_isolates_failures (net : Item → ℕ → Except String WriteResp)
    (dry_run : Bool) (items : List Item) :
    (processItems net dry_run items).length = items.length ∧
    (∀ n : ℕ, (processItems net dry_run items)[n]? =
      (items[n]?).map (fun it => processItem (net it) dry_run it)) ∧
    (processItems net dry_run items).countP (fun r => isFailed r.outcome) =
      items.countP (fun it => isFailed (processItem (net it) dry_run it).outcome) ∧
    (∀ it : Item, ∀ ri : RawInputs, extractInputs it.column_values = Except.ok ri →
      (∀ j, j < 5 → isNetError (net it j) = true) →
      isFailed (processItem (net it) false it).outcome = true) := by
  refine ⟨by simp [processItems], ?_, ?_, ?_⟩
  · intro n
    simp [processItems]
  · simp [processItems, List.countP_map]
    rfl
  · intro it ri hext hfail
    have hterm : isTerminalFailure (http_post_with_retries (net it) 5).result = true := by
      rw [http_post_with_retries]
      exact (retryGo_all_fail (net it) 5 5 0 1 (by omega)
        (fun j hj => by simpa using hfail j hj)).2.2
    cases hres : (http_post_with_retries (net it) 5).result with
    | none => rw [hres] at hterm; simp [isTerminalFailure] at hterm
    | some x =>
      cases x with
      | ok r => rw [hres] at hterm; simp [isTerminalFailure] at hterm
      | error msg => simp [processItem, hext, hres, isFailed]

/-- Witness for C6: in the batch [A, B, C] with a network that fails all
of B's write attempts and accepts A's and C's at once, exactly one
outcome is failed, and A's entry is the same as processing A alone. -/
theorem sync_loop_isolates_failures_witness :
    isFailed (processItem (netW itemB) false itemB).outcome = true ∧
    (processItems netW false [itemA, itemB, itemC]).countP (fun r => isFailed r.outcome) = 1 ∧
    (processItems netW false [itemA, itemB, itemC])[0]? =
      some (processItem (netW itemA) false itemA) := by
  refine ⟨?_, ?_, ?_⟩
  · exact (sync_loop_isolates_failures netW false [itemA, itemB, itemC]).2.2.2 itemB
      zeroRawInputs (by decide) (fun j hj => rfl)
  · rw [(sync_loop_isolates_failures netW false [itemA, itemB, itemC]).2.2.1]
    decide
  · rw [(sync_loop_isolates_failures netW false [itemA, itemB, itemC]).2.1 0]
    decide

/-- C7: every call through the retry helper is attempted at most 5
times; sleeps between consecutive failed attempts are 1, 2, 4, 8; a
success at attempt k returns that response immediately after exactly
k+1 attempts and sleeps 1, 2, …, 2^(k-1); the terminal failure is
raised exactly when all 5 attempts fail; and a record's write never
makes more than 5 network calls. -/
theorem retry_policy (α : Type) (post : ℕ → Except String α) :
    (http_post_with_retries post 5).attempts ≤ 5 ∧
    (∀ k r, k < 5 → (∀ j, j < k → isNetError (post j) = true) → post k = Except.ok r →
      http_post_with_retries post 5 =
        ⟨some (Except.ok r), (List.range k).map (fun j => 2 ^ j), k + 1⟩) ∧
    ((∀ j, j < 5 → isNetError (post j) = true) →
      (http_post_with_retries post 5).sleeps = [1, 2, 4, 8] ∧
      (http_post_with_retries post 5).attempts = 5 ∧
      isTerminalFailure (http_post_with_retries post 5).result = true) ∧
    (isTerminalFailure (http_post_with_retries post 5).result = true ↔
      (∀ j, j < 5 → isNetError (post j) = true)) ∧
    (∀ (wpost : ℕ → Except String WriteResp) (dry : Bool) (item : Item),
      (processItem wpost dry item).netCalls ≤ 5) := by
  refine ⟨?_, ?_, ?_, ⟨?_, ?_⟩, ?_⟩
  · rw [http_post_with_retries]
    exact retryGo_attempts_le post 5 5 0 1
  · intro k r hk hfail hok
    rw [http_post_with_retries]
    have h := retryGo_success post 5 k 0 1 5 hk
      (fun j hj => by simpa using hfail j hj) r (by simpa using hok)
    simpa using h
  · intro hfail
    have h := retryGo_all_fail post 5 5 0 1 (by omega)
      (fun j hj => by simpa using hfail j hj)
    rw [http_post_with_retries]
    refine ⟨?_, h.2.1, h.2.2⟩
    rw [h.1]
    decide
  · intro hterm j hj
    have h := retryGo_error_all_fail post 5 5 0 1 (by rwa [http_post_with_retries] at hterm)
      j hj
    simpa using h
  · intro hfail
    have h := retryGo_all_fail post 5 5 0 1 (by omega)
      (fun j hj => by simpa using hfail j hj)
    rw [http_post_with_retries]
    exact h.2.2
  · intro wpost dry item
    cases hext : extractInputs item.column_values with
    | error e => simp [processItem, hext]
    | ok inputs =>
      cases dry with
      | true => simp [processItem, hext]
      | false =>
        have hle : (http_post_with_retries wpost 5).attempts ≤ 5 := by
          rw [http_post_with_retries]
          exact retryGo_attempts_le wpost 5 5 0 1
        cases hres : (http_post_with_retries wpost 5).result with
        | none => simpa [processItem, hext, hres] using hle
        | some x => cases x <;> simpa [processItem, hext, hres] using hle

/-- Witness for C7: a network failing attempts 0 and 1 and succeeding at
attempt 2 sleeps 1 then 2, makes 3 attempts, and returns the response. -/
theorem retry_policy_witness :
    http_post_with_retries postTwoFail 5 = ⟨some (Except.ok 7), [1, 2], 3⟩ := by
  have h := (retry_policy ℕ postTwoFail).2.1 2 7 (by omega)
    (fun j hj => by
      have hne : j ≠ 2 := by omega
      simp [postTwoFail, hne, isNetError])
    (by rfl)
  rw [show (List.range 2).map (fun j => (2:ℕ) ^ j) = [1, 2] by decide] at h
  exact h

/-- C8: in dry-run mode no write call is issued for a record (no
payload sent, zero network calls), and the field map a live run over
the same record sends is exactly the map the dry run computed and
recorded — whatever either run's network would have answered. -/
theorem dry_run_no_writes_same_map (post post2 : ℕ → Except String WriteResp) (item : Item) :
    (processItem post true item).sent = [] ∧
    (processItem post true item).netCalls = 0 ∧
    (processItem post2 false item).sent = ((processItem post true item).wouldSend).toList := by
  cases hext : extractInputs item.column_values with
  | error e => refine ⟨?_, ?_, ?_⟩ <;> simp [processItem, hext]
  | ok inputs =>
    refine ⟨?_, ?_, ?_⟩
    · simp [processItem, hext]
    · simp [processItem, hext]
    · cases hres : (http_post_with_retries post2 5).result with
      | none => simp [processItem, hext, hres]
      | some x => cases x <;> simp [processItem, hext, hres]

/-- C9: the cash-flow vector handed to the solver is exactly
[-|equity|, y1, y2, y3, y4, y5 + sale]: the equity sign is forced
negative through the absolute value taken at extraction, index 0 is
always ≤ 0, and it is 0 exactly when the parsed equity investment was
0. -/
theorem cashflow_vector_shape (cv : List (String × PyVal)) (q : ℚ) (i : RawInputs)
    (hq : safe_number_colval (dictGet cv COL_EQUITY_INVESTMENT) = Except.ok q)
    (hi : extractInputs cv = Except.ok i) :
    i.equity_investment = |q| ∧
    buildCashflows i =
      [-i.equity_investment, i.year_1_cf, i.y2, i.y3, i.y4, i.y5 + i.sale] ∧
    (buildCashflows i).headI ≤ 0 ∧
    ((buildCashflows i).headI = 0 ↔ q = 0) := by
  rw [extractInputs] at hi
  obtain ⟨noi, h1, hi⟩ := except_bind_ok hi
  obtain ⟨tpc, h2, hi⟩ := except_bind_ok hi
  obtain ⟨loan, h3, hi⟩ := except_bind_ok hi
  obtain ⟨mcr, h4, hi⟩ := except_bind_ok hi
  obtain ⟨ecr, h5, hi⟩ := except_bind_ok hi
  obtain ⟨y1, h6, hi⟩ := except_bind_ok hi
  obtain ⟨eqr, h7, hi⟩ := except_bind_ok hi
  obtain ⟨y2, h8, hi⟩ := except_bind_ok hi
  obtain ⟨y3, h9, hi⟩ := except_bind_ok hi
  obtain ⟨y4, h10, hi⟩ := except_bind_ok hi
  obtain ⟨y5, h11, hi⟩ := except_bind_ok hi
  obtain ⟨sale, h12, hi⟩ := except_bind_ok hi
  rw [h7] at hq
  injection hq with hq
  subst hq
  injection hi with hi
  subst hi
  refine ⟨qabs_eq eqr, ?_, ?_, ?_⟩
  · simp [buildCashflows, qneg_eq, qadd_eq]
  · simp only [buildCashflows, List.headI, qneg_eq, qabs_eq]
    exact neg_nonpos.mpr (abs_nonneg eqr)
  · simp only [buildCashflows, List.headI, qneg_eq, qabs_eq, neg_eq_zero, abs_eq_zero]

/-- Witness for C9 at the empty record (every column absent, equity
parses to 0). -/
theorem cashflow_vector_shape_witness :
    zeroRawInputs.equity_investment = |(0 : ℚ)| ∧
    buildCashflows zeroRawInputs =
      [-zeroRawInputs.equity_investment, zeroRawInputs.year_1_cf, zeroRawInputs.y2,
        zeroRawInputs.y3, zeroRawInputs.y4, zeroRawInputs.y5 + zeroRawInputs.sale] ∧
    (buildCashflows zeroRawInputs).headI ≤ 0 ∧
    ((buildCashflows zeroRawInputs).headI = 0 ↔ (0 : ℚ) = 0) :=
  cashflow_vector_shape [] 0 zeroRawInputs rfl (by decide)

/-- C10 (implicit): when a write's HTTP layer succeeds but the response
body carries GraphQL errors, the write is not retried (one network
call) and the record is not `failed` — the outcome is `updated` with
the error only printed, and the loop proceeds. -/
theorem graphql_errors_only_printed (post : ℕ → Except String WriteResp) (item : Item)
    (ri : RawInputs) (hext : extractInputs item.column_values = Except.ok ri)
    (h0 : post 0 = Except.ok ⟨true⟩) :
    (processItem post false item).outcome = Outcome.updated true ∧
    (processItem post false item).netCalls = 1 := by
  have hret : http_post_with_retries post 5 = ⟨some (Except.ok ⟨true⟩), [], 1⟩ := by
    rw [http_post_with_retries]
    have h := retryGo_success post 5 0 0 1 5 (by omega)
      (fun j hj => absurd hj (by omega)) ⟨true⟩ (by simpa using h0)
    simpa using h
  constructor <;> simp [processItem, hext, hret]

/-- Witness for C10: a record whose write is HTTP-accepted with a body
containing GraphQL errors ends `updated`, after a single attempt. -/
theorem graphql_errors_only_printed_witness :
    (processItem postW false itemA).outcome = Outcome.updated true ∧
    (processItem postW false itemA).netCalls = 1 :=
  graphql_errors_only_printed postW itemA zeroRawInputs (by decide) rfl
